import Mathlib

/-!
Shallow embedding of the CRE-Property-Search filtering / sorting / selection /
pagination / comparison core, translated from the TypeScript sources:

* `src/src/components/SearchAndFilters.tsx` — filter pipeline, sort comparator,
  range initialisation;
* `src/src/components/PropertyGrid.tsx` — selection tracker, pagination
  (reveal window), compare-modal input, input safety check;
* `src/unnamed/part_000` (`CompareModal.tsx`) — comparison calculator.

Modelling conventions: JavaScript numbers are modelled as `ℚ` (the claims under
study are structural, none depends on binary floating-point rounding);
timestamps (`new Date(p.date_listed).getTime()`) are modelled as the listing's
timestamp field of type `ℤ`, since `Date` parsing is a fixed injective monotone
map from the stored date strings; `String.prototype.includes` is substring
containment; `toLowerCase` maps `Char.toLower` over the characters;
`localeCompare` is modelled as code-point order comparison.  JS `Set` values of
listing ids are modelled as `Finset String`.  ES2019 requires
`Array.prototype.sort` to be stable, so the sort call is modelled by stable
insertion sort (`List.insertionSort`) with the relation `cmp a b ≤ 0`, which is
observationally the unique stable sort for the consistent comparators used here.
-/

set_option maxHeartbeats 1000000

/-- Address record, from the `Property` shape used throughout the sources
(`property.address.city` etc.). -/
structure Address where
  street : String
  city : String
  state : String
  zip : String
deriving DecidableEq

/-- Listing record, fields exactly as used by the sources: `id`, `title`,
`description`, `type`, `address`, `price_per_sqft`, `total_sqft`, optional
`year_built`, `date_listed` (timestamp), `amenities`, `images`. -/
structure Property where
  id : String
  title : String
  description : String
  type : String
  address : Address
  price_per_sqft : ℚ
  total_sqft : ℚ
  year_built : Option Nat
  date_listed : ℤ
  amenities : List String
  images : List String
deriving DecidableEq

/-- Derived total price, `p.price_per_sqft * p.total_sqft`
(SearchAndFilters.tsx line 137, CompareModal line 17). -/
def totalPrice (p : Property) : ℚ := p.price_per_sqft * p.total_sqft

/-- Boolean test that `pre` is a prefix of the second list (character lists). -/
def isPrefixOfB : List Char → List Char → Bool
  | [], _ => true
  | _ :: _, [] => false
  | a :: as, b :: bs => a == b && isPrefixOfB as bs

/-- Substring containment on character lists: some tail of `hay` starts with
`needle`.  Models `String.prototype.includes`. -/
def containsSubB : List Char → List Char → Bool
  | [], needle => needle.isEmpty
  | h :: t, needle => isPrefixOfB needle (h :: t) || containsSubB t needle

/-- `hay.includes(needle)` on strings. -/
def strIncludes (hay needle : String) : Bool := containsSubB hay.data needle.data

/-- `s.toLowerCase()`, modelled character-wise. -/
def lowerStr (s : String) : String := ⟨s.data.map Char.toLower⟩

/-- Text-search predicate of the filter pipeline
(SearchAndFilters.tsx lines 118-125): the lower-cased term occurs in the
lower-cased title, description, city, state, or in some amenity. -/
def matchesSearch (term : String) (p : Property) : Bool :=
  strIncludes (lowerStr p.title) (lowerStr term) ||
  strIncludes (lowerStr p.description) (lowerStr term) ||
  strIncludes (lowerStr p.address.city) (lowerStr term) ||
  strIncludes (lowerStr p.address.state) (lowerStr term) ||
  p.amenities.any (fun a => strIncludes (lowerStr a) (lowerStr term))

/-- The listing's "city, state" string
(SearchAndFilters.tsx line 149: `${property.address.city}, ${property.address.state}`). -/
def locationOf (p : Property) : String := p.address.city ++ ", " ++ p.address.state

/-- Filter criteria, from the `FilterState` interface of SearchAndFilters.tsx. -/
structure FilterState where
  searchTerm : String
  selectedTypes : List String
  priceRange : ℚ × ℚ
  sizeRange : ℚ × ℚ
  selectedLocations : List String
  selectedAmenities : List String
  sortBy : String
deriving DecidableEq

/-- The six narrowing stages of the filter `useEffect`
(SearchAndFilters.tsx lines 112-161), in source order.  The search stage runs
only when the (debounced) term is non-empty (`if (debouncedSearchTerm)`); type,
location and amenities stages run only when their selected lists are non-empty;
the price and size range stages always run. -/
def applyFilters (c : FilterState) (properties : List Property) : List Property :=
  let f1 := if c.searchTerm = "" then properties
            else properties.filter (fun p => matchesSearch c.searchTerm p)
  let f2 := if c.selectedTypes.isEmpty then f1
            else f1.filter (fun p => c.selectedTypes.contains p.type)
  let f3 := f2.filter (fun p =>
              decide (c.priceRange.1 ≤ totalPrice p) && decide (totalPrice p ≤ c.priceRange.2))
  let f4 := f3.filter (fun p =>
              decide (c.sizeRange.1 ≤ p.total_sqft) && decide (p.total_sqft ≤ c.sizeRange.2))
  let f5 := if c.selectedLocations.isEmpty then f4
            else f4.filter (fun p => c.selectedLocations.contains (locationOf p))
  let f6 := if c.selectedAmenities.isEmpty then f5
            else f5.filter (fun p => c.selectedAmenities.all (fun a => p.amenities.contains a))
  f6

/-- Membership in a conditionally applied filter stage: the stage narrows only
when its guard condition fails. -/
theorem mem_ite_filter {α} (cond : Prop) [Decidable cond] (l : List α) (f : α → Bool) (x : α) :
    x ∈ (if cond then l else l.filter f) ↔ x ∈ l ∧ (¬ cond → f x = true) := by
  split_ifs with h
  · simp [h]
  · simp [List.mem_filter, h]

/-- Claim C1: a listing is in the filtered result set iff it passes all six
narrowing predicates — non-empty search term occurs (case-insensitively) in
title, description, city, state or some amenity; non-empty type set contains
its type; total price within the inclusive price range; total area within the
inclusive area range; non-empty location set contains its "city, state"
string; non-empty required-amenity set is wholly contained in its amenities —
and consequently a listing with no amenities fails any non-empty amenities
filter. -/
theorem c1_filter_membership :
    (∀ (c : FilterState) (ps : List Property) (p : Property),
      p ∈ applyFilters c ps ↔
        p ∈ ps ∧
        (c.searchTerm ≠ "" →
          (strIncludes (lowerStr p.title) (lowerStr c.searchTerm) = true ∨
           strIncludes (lowerStr p.description) (lowerStr c.searchTerm) = true ∨
           strIncludes (lowerStr p.address.city) (lowerStr c.searchTerm) = true ∨
           strIncludes (lowerStr p.address.state) (lowerStr c.searchTerm) = true ∨
           ∃ a ∈ p.amenities, strIncludes (lowerStr a) (lowerStr c.searchTerm) = true)) ∧
        (c.selectedTypes ≠ [] → p.type ∈ c.selectedTypes) ∧
        (c.priceRange.1 ≤ totalPrice p ∧ totalPrice p ≤ c.priceRange.2) ∧
        (c.sizeRange.1 ≤ p.total_sqft ∧ p.total_sqft ≤ c.sizeRange.2) ∧
        (c.selectedLocations ≠ [] → locationOf p ∈ c.selectedLocations) ∧
        (c.selectedAmenities ≠ [] → ∀ a ∈ c.selectedAmenities, a ∈ p.amenities)) ∧
    (∀ (c : FilterState) (ps : List Property) (p : Property),
      p.amenities = [] → c.selectedAmenities ≠ [] → p ∉ applyFilters c ps) := by
  have main : ∀ (c : FilterState) (ps : List Property) (p : Property),
      p ∈ applyFilters c ps ↔
        p ∈ ps ∧
        (c.searchTerm ≠ "" →
          (strIncludes (lowerStr p.title) (lowerStr c.searchTerm) = true ∨
           strIncludes (lowerStr p.description) (lowerStr c.searchTerm) = true ∨
           strIncludes (lowerStr p.address.city) (lowerStr c.searchTerm) = true ∨
           strIncludes (lowerStr p.address.state) (lowerStr c.searchTerm) = true ∨
           ∃ a ∈ p.amenities, strIncludes (lowerStr a) (lowerStr c.searchTerm) = true)) ∧
        (c.selectedTypes ≠ [] → p.type ∈ c.selectedTypes) ∧
        (c.priceRange.1 ≤ totalPrice p ∧ totalPrice p ≤ c.priceRange.2) ∧
        (c.sizeRange.1 ≤ p.total_sqft ∧ p.total_sqft ≤ c.sizeRange.2) ∧
        (c.selectedLocations ≠ [] → locationOf p ∈ c.selectedLocations) ∧
        (c.selectedAmenities ≠ [] → ∀ a ∈ c.selectedAmenities, a ∈ p.amenities) := by
    intro c ps p
    simp only [applyFilters, mem_ite_filter, List.mem_filter, List.isEmpty_iff, ne_eq,
      matchesSearch, Bool.or_eq_true, List.any_eq_true, Bool.and_eq_true, decide_eq_true_eq,
      List.contains, List.elem_eq_mem, List.all_eq_true]
    tauto
  refine ⟨main, ?_⟩
  intro c ps p hamen hsel hmem
  rcases ((main c ps p).1 hmem) with ⟨-, -, -, -, -, -, hall⟩
  rcases List.exists_mem_of_ne_nil _ hsel with ⟨a, ha⟩
  have := hall hsel a ha
  rw [hamen] at this
  exact (List.not_mem_nil a) this

/-- Concrete example address used by witnesses. -/
def exAddr : Address := ⟨"1 Main St", "Austin", "TX", "78701"⟩

/-- Concrete example listing used by witnesses. -/
def exProp : Property := ⟨"a", "Modern Office", "Bright space", "office", exAddr,
  10, 1000, some 2020, 1700000000, ["Parking"], []⟩

/-- Concrete example filter criteria used by witnesses. -/
def exCrit : FilterState := ⟨"office", ["office"], (0, 100000), (0, 5000), [], [], "date_listed"⟩

/-- Witness for C1 at a concrete listing and criteria. -/
theorem c1_filter_membership_witness :
    exProp ∈ applyFilters exCrit [exProp] ∧ (exProp.amenities = [] → False) := by
  constructor
  · refine (c1_filter_membership.1 exCrit [exProp] exProp).2 ?_
    refine ⟨List.mem_singleton_self exProp, ?_, ?_, ?_, ?_, ?_, ?_⟩
    · intro _
      left
      decide
    · intro _
      decide
    · constructor <;> norm_num [totalPrice, exProp, exCrit]
    · constructor <;> norm_num [exProp, exCrit]
    · intro h
      exact absurd rfl h
    · intro h
      exact absurd rfl h
  · intro h
    simp [exProp] at h

/-- Selection toggle from PropertyGrid.tsx lines 32-43: when turning on, the
request is ignored if the set already has 4 (or more) members, otherwise the
id is inserted; turning off always removes the id. -/
def toggleSelect (id : String) (checked : Bool) (s : Finset String) : Finset String :=
  if checked then
    if 4 ≤ s.card then s else insert id s
  else s.erase id

/-- One toggle step keeps the selection-set size at most 4. -/
theorem toggleSelect_card_le (id : String) (checked : Bool) (s : Finset String)
    (h : s.card ≤ 4) : (toggleSelect id checked s).card ≤ 4 := by
  unfold toggleSelect
  split_ifs with hc hfull
  · exact h
  · calc (insert id s).card ≤ s.card + 1 := Finset.card_insert_le id s
      _ ≤ 4 := by omega
  · exact le_trans (Finset.card_erase_le) h

/-- Claim C3: toggling on at capacity 4 returns the set unchanged; toggling
off always erases the id; every sequence of toggle operations preserves the
size bound of 4; and toggling 5 distinct ids on from the empty set yields
exactly the first 4 ids, a set of size 4. -/
theorem c3_selection_cap :
    (∀ (s : Finset String) (id : String), s.card = 4 → toggleSelect id true s = s) ∧
    (∀ (s : Finset String) (id : String), toggleSelect id false s = s.erase id) ∧
    (∀ (ops : List (String × Bool)) (s : Finset String), s.card ≤ 4 →
      (ops.foldl (fun t q => toggleSelect q.1 q.2 t) s).card ≤ 4) ∧
    (∀ a b c d e : String, [a, b, c, d, e].Pairwise (· ≠ ·) →
      ([a, b, c, d, e].foldl (fun t i => toggleSelect i true t) ∅) = ({a, b, c, d} : Finset String) ∧
      ([a, b, c, d, e].foldl (fun t i => toggleSelect i true t) ∅).card = 4) := by
  refine ⟨?_, ?_, ?_, ?_⟩
  · intro s id h
    simp [toggleSelect, h]
  · intro s id
    simp [toggleSelect]
  · intro ops
    induction ops with
    | nil => intro s h; exact h
    | cons q ops ih =>
      intro s h
      exact ih (toggleSelect q.1 q.2 s) (toggleSelect_card_le q.1 q.2 s h)
  · intro a b c d e h
    simp only [List.pairwise_cons, List.mem_cons, List.mem_singleton,
      List.not_mem_nil] at h
    obtain ⟨ha, hb, hc, hd, -⟩ := h
    have hab : a ≠ b := ha b (Or.inl rfl)
    have hac : a ≠ c := ha c (Or.inr (Or.inl rfl))
    have had : a ≠ d := ha d (Or.inr (Or.inr (Or.inl rfl)))
    have hbc : b ≠ c := hb c (Or.inl rfl)
    have hbd : b ≠ d := hb d (Or.inr (Or.inl rfl))
    have hcd : c ≠ d := hc d (Or.inl rfl)
    have m2 : b ∉ ({a} : Finset String) := Finset.not_mem_singleton.mpr (Ne.symm hab)
    have m3 : c ∉ ({b, a} : Finset String) := by
      simp only [Finset.mem_insert, Finset.mem_singleton]
      push_neg
      exact ⟨Ne.symm hbc, Ne.symm hac⟩
    have m4 : d ∉ ({c, b, a} : Finset String) := by
      simp only [Finset.mem_insert, Finset.mem_singleton]
      push_neg
      exact ⟨Ne.symm hcd, Ne.symm hbd, Ne.symm had⟩
    have card2 : ({b, a} : Finset String).card = 2 := by
      rw [Finset.card_insert_of_not_mem m2, Finset.card_singleton]
    have card3 : ({c, b, a} : Finset String).card = 3 := by
      rw [Finset.card_insert_of_not_mem m3, card2]
    have card4 : ({d, c, b, a} : Finset String).card = 4 := by
      rw [Finset.card_insert_of_not_mem m4, card3]
    have efold : ([a, b, c, d, e].foldl (fun t i => toggleSelect i true t) ∅)
        = ({d, c, b, a} : Finset String) := by
      simp only [List.foldl_cons, List.foldl_nil]
      rw [show toggleSelect a true ∅ = {a} from by simp [toggleSelect]]
      rw [show toggleSelect b true {a} = ({b, a} : Finset String) from by simp [toggleSelect]]
      rw [show toggleSelect c true ({b, a} : Finset String) = ({c, b, a} : Finset String) from by
        simp [toggleSelect, card2]]
      rw [show toggleSelect d true ({c, b, a} : Finset String) = ({d, c, b, a} : Finset String) from by
        simp [toggleSelect, card3]]
      rw [show toggleSelect e true ({d, c, b, a} : Finset String) = ({d, c, b, a} : Finset String) from by
        simp [toggleSelect, card4]]
    constructor
    · rw [efold]
      ext x
      simp only [Finset.mem_insert, Finset.mem_singleton]
      constructor
      · rintro (h | h | h | h) <;> simp [h]
      · rintro (h | h | h | h) <;> simp [h]
    · rw [efold, card4]

/-- Witness for C3 at concrete ids. -/
theorem c3_selection_cap_witness :
    (toggleSelect "v" false {"v", "w"} = ({"v", "w"} : Finset String).erase "v") ∧
    ([("v", true)].foldl (fun t q => toggleSelect q.1 q.2 t) ∅).card ≤ 4 ∧
    (["p", "q", "r", "s", "t"].foldl (fun t i => toggleSelect i true t) ∅)
      = ({"p", "q", "r", "s"} : Finset String) := by
  refine ⟨c3_selection_cap.2.1 _ _, c3_selection_cap.2.2.1 _ ∅ (by simp), ?_⟩
  exact (c3_selection_cap.2.2.2 "p" "q" "r" "s" "t" (by decide)).1

/-- Component state of PropertyGrid.tsx relevant to pagination, selection and
comparison: `filteredProperties`, `selectedIds`, `visibleCount`,
`isLoadingMore`, `hasMore`. -/
structure GridState where
  filtered : List Property
  selectedIds : Finset String
  visibleCount : Nat
  isLoadingMore : Bool
  hasMore : Bool
deriving DecidableEq

/-- Initial state on mount (PropertyGrid.tsx lines 16-24): filtered list
initialised to the root collection, empty selection, `visibleCount = 8`,
`isLoadingMore = false`, `hasMore = true`. -/
def initGridState (properties : List Property) : GridState :=
  { filtered := properties
    selectedIds := ∅
    visibleCount := 8
    isLoadingMore := false
    hasMore := true }

/-- Effect run whenever the filtered sequence changes (PropertyGrid.tsx lines
58-61), and equally the root-collection-change effect (lines 51-55, with the
root collection as the new sequence): store the new sequence, reset
`visibleCount` to 8 and recompute `hasMore` as `length > 8`.  The selection
set is untouched. -/
def onFilteredChange (l : List Property) (st : GridState) : GridState :=
  { st with filtered := l, visibleCount := 8, hasMore := decide (8 < l.length) }

/-- Materialized items (PropertyGrid.tsx line 103):
`filteredProperties.slice(0, visibleCount)`. -/
def visibleProperties (st : GridState) : List Property :=
  st.filtered.take st.visibleCount

/-- First phase of `loadMoreProperties` (PropertyGrid.tsx lines 64-67): no-op
when `isLoadingMore` or not `hasMore`, otherwise set the loading flag. -/
def loadMoreBegin (st : GridState) : GridState :=
  if st.isLoadingMore || !st.hasMore then st else { st with isLoadingMore := true }

/-- Deferred second phase of `loadMoreProperties` (the `setTimeout` callback,
PropertyGrid.tsx lines 70-77): increment `visibleCount` by 8, recompute
`hasMore` against the filtered length, clear the loading flag. -/
def loadMoreFinish (st : GridState) : GridState :=
  { st with visibleCount := st.visibleCount + 8
            hasMore := decide (st.visibleCount + 8 < st.filtered.length)
            isLoadingMore := false }

/-- Complete `loadMoreProperties` invocation: the guard followed by both
phases (the delay only sequences them; no other event is modelled between). -/
def loadMore (st : GridState) : GridState :=
  if st.isLoadingMore || !st.hasMore then st else loadMoreFinish (loadMoreBegin st)

/-- Input handed to the comparison overlay (PropertyGrid.tsx line 282):
`filteredProperties.filter(p => selectedIds.has(p.id)).slice(0, 4)`. -/
def compareInput (st : GridState) : List Property :=
  (st.filtered.filter (fun p => decide (p.id ∈ st.selectedIds))).take 4

/-- Claim C4: whenever the filtered sequence changes, `revealCount` resets to
8 and `hasMore` is recomputed against the new length; in particular going from
`revealCount = 16` over 20 items to a 5-item sequence gives `revealCount = 8`,
a visible count of `min 8 5 = 5`, and `hasMore = false`. -/
theorem c4_pagination_reset :
    (∀ (st : GridState) (l : List Property),
      (onFilteredChange l st).visibleCount = 8 ∧
      (onFilteredChange l st).hasMore = decide (8 < l.length) ∧
      visibleProperties (onFilteredChange l st) = l.take 8) ∧
    ((onFilteredChange (List.replicate 5 exProp)
        { initGridState (List.replicate 20 exProp) with visibleCount := 16 }).visibleCount = 8 ∧
     (visibleProperties (onFilteredChange (List.replicate 5 exProp)
        { initGridState (List.replicate 20 exProp) with visibleCount := 16 })).length = min 8 5 ∧
     (onFilteredChange (List.replicate 5 exProp)
        { initGridState (List.replicate 20 exProp) with visibleCount := 16 }).hasMore = false) := by
  refine ⟨fun st l => ⟨rfl, rfl, rfl⟩, rfl, ?_, rfl⟩
  simp [onFilteredChange, visibleProperties, initGridState]

/-- When the guard passes, a full `loadMore` run sets the loading flag in its
first phase, then increments the reveal count by exactly 8, recomputes
`hasMore`, and clears the flag. -/
theorem loadMore_run (st : GridState) (h1 : st.isLoadingMore = false)
    (h2 : st.hasMore = true) :
    (loadMoreBegin st).isLoadingMore = true ∧
    loadMore st = loadMoreFinish (loadMoreBegin st) ∧
    (loadMore st).visibleCount = st.visibleCount + 8 ∧
    (loadMore st).hasMore = decide (st.visibleCount + 8 < st.filtered.length) ∧
    (loadMore st).isLoadingMore = false := by
  have hg : (st.isLoadingMore || !st.hasMore) = false := by simp [h1, h2]
  refine ⟨?_, ?_, ?_, ?_, ?_⟩ <;>
    simp [loadMore, loadMoreBegin, loadMoreFinish, hg, h1, h2]

/-- Claim C6: `loadMore` is a no-op when `isLoadingMore` is true or `hasMore`
is false; otherwise the first phase sets `isLoadingMore`, and after the delay
`revealCount` is incremented by exactly 8, `hasMore` is recomputed as
`new revealCount < filtered length`, and `isLoadingMore` is cleared. -/
theorem c6_load_more (st : GridState) :
    (st.isLoadingMore = true ∨ st.hasMore = false → loadMore st = st) ∧
    (st.isLoadingMore = false → st.hasMore = true →
      (loadMoreBegin st).isLoadingMore = true ∧
      loadMore st = loadMoreFinish (loadMoreBegin st) ∧
      (loadMore st).visibleCount = st.visibleCount + 8 ∧
      (loadMore st).hasMore = decide (st.visibleCount + 8 < st.filtered.length) ∧
      (loadMore st).isLoadingMore = false) := by
  constructor
  · intro h
    unfold loadMore
    rcases h with h | h <;> simp [h]
  · exact loadMore_run st

/-- Witness for C6: a ready state with 4 visible items over 20 grows to 12. -/
theorem c6_load_more_witness :
    loadMore { initGridState (List.replicate 20 exProp) with visibleCount := 4 }
      = { initGridState (List.replicate 20 exProp) with visibleCount := 4 } ∨
    ((loadMore { initGridState (List.replicate 20 exProp) with visibleCount := 4 }).visibleCount
      = 12 ∧
     (loadMore { initGridState (List.replicate 20 exProp) with visibleCount := 4 }).isLoadingMore
      = false) := by
  have h := (c6_load_more
    { initGridState (List.replicate 20 exProp) with visibleCount := 4 }).2 rfl rfl
  exact Or.inr ⟨h.2.2.1, h.2.2.2.2⟩

/-- Counterexample for C7: after a filter change yielding 5 items — a
reachable state — the reveal count is 8, which exceeds the filtered sequence
length 5, refuting "the Reveal Window count never exceeds the length of the
filtered/sorted sequence". -/
theorem c7_reveal_window_counterexample :
    (onFilteredChange (List.replicate 5 exProp)
        (initGridState (List.replicate 20 exProp))).visibleCount = 8 ∧
    (onFilteredChange (List.replicate 5 exProp)
        (initGridState (List.replicate 20 exProp))).filtered.length = 5 ∧
    ¬ ((onFilteredChange (List.replicate 5 exProp)
        (initGridState (List.replicate 20 exProp))).visibleCount ≤
       (onFilteredChange (List.replicate 5 exProp)
        (initGridState (List.replicate 20 exProp))).filtered.length) := by
  refine ⟨rfl, ?_, ?_⟩
  · simp [onFilteredChange]
  · simp [onFilteredChange]

/-- Claim C7 as amended: the reveal count starts at 8 and resets to 8, grows
by exactly 8 each time the trigger passes the guard, and the materialized
items are always the first `revealCount` elements of the filtered sequence —
so the NUMBER of materialized items never exceeds the filtered length, though
the raw count itself may exceed it. -/
theorem c7_reveal_window (st : GridState) :
    (∀ ps, (initGridState ps).visibleCount = 8) ∧
    (∀ l, (onFilteredChange l st).visibleCount = 8) ∧
    (st.isLoadingMore = false → st.hasMore = true →
      (loadMore st).visibleCount = st.visibleCount + 8) ∧
    visibleProperties st = st.filtered.take st.visibleCount ∧
    (visibleProperties st).length ≤ st.filtered.length := by
  refine ⟨fun _ => rfl, fun _ => rfl, ?_, rfl, ?_⟩
  · intro h1 h2
    exact (loadMore_run st h1 h2).2.2.1
  · simp [visibleProperties]

/-- Witness for C7 at a ready concrete state. -/
theorem c7_reveal_window_witness :
    (loadMore (initGridState (List.replicate 20 exProp))).visibleCount = 16 ∧
    (visibleProperties (initGridState (List.replicate 20 exProp))).length ≤ 20 := by
  have h := c7_reveal_window (initGridState (List.replicate 20 exProp))
  refine ⟨h.2.2.1 rfl rfl, ?_⟩
  have := h.2.2.2.2
  simpa [initGridState] using this

/-- Claim C10: changing the filter criteria never modifies the selection set
(the id set, its size, and the compare threshold are untouched by
`onFilteredChange`), while the comparison input is exactly the filtered
sequence restricted to selected ids, in filtered order, truncated to 4; hence
a selected listing absent from the current filtered sequence is absent from
the comparison input. -/
theorem c10_selection_frame (st : GridState) (l : List Property) (p : Property) :
    ((onFilteredChange l st).selectedIds = st.selectedIds) ∧
    ((onFilteredChange l st).selectedIds.card = st.selectedIds.card) ∧
    (2 ≤ st.selectedIds.card → 2 ≤ (onFilteredChange l st).selectedIds.card) ∧
    (compareInput st = (st.filtered.filter (fun q => decide (q.id ∈ st.selectedIds))).take 4) ∧
    (p.id ∈ st.selectedIds → p ∉ st.filtered → p ∉ compareInput st) := by
  refine ⟨rfl, rfl, fun h => h, rfl, ?_⟩
  intro _ hnot hmem
  exact hnot (List.mem_filter.1 (List.mem_of_mem_take hmem)).1

/-- Witness for C10: a selected listing with the filtered list empty is not in
the comparison input. -/
theorem c10_selection_frame_witness :
    exProp ∉ compareInput
      { filtered := []
        selectedIds := {"a"}
        visibleCount := 8
        isLoadingMore := false
        hasMore := false } := by
  refine (c10_selection_frame _ [] exProp).2.2.2.2 ?_ ?_
  · show exProp.id ∈ ({"a"} : Finset String)
    decide
  · exact List.not_mem_nil exProp

/-- Minimum of a list of rationals, as `Math.min(...xs)` over a non-empty
spread; the empty case (JS `Infinity`) is unreachable behind the
`properties.length > 0` guard and is given a junk value. -/
def listMinQ : List ℚ → ℚ
  | [] => 0
  | x :: xs => xs.foldl min x

/-- Maximum of a list of rationals, as `Math.max(...xs)` over a non-empty
spread; the empty case (JS `-Infinity`) is unreachable behind the guard. -/
def listMaxQ : List ℚ → ℚ
  | [] => 0
  | x :: xs => xs.foldl max x

/-- `minPrice` (SearchAndFilters.tsx line 64): minimum total price over the
full collection. -/
def minPriceOf (properties : List Property) : ℚ :=
  listMinQ (properties.map totalPrice)

/-- `maxPrice` (SearchAndFilters.tsx line 65): maximum total price over the
full collection. -/
def maxPriceOf (properties : List Property) : ℚ :=
  listMaxQ (properties.map totalPrice)

/-- `minSize` (SearchAndFilters.tsx line 68): a fixed constant 600, NOT
derived from the collection. -/
def minSizeConst : ℚ := 600

/-- `maxSize` (SearchAndFilters.tsx line 69): maximum total area over the
full collection. -/
def maxSizeOf (properties : List Property) : ℚ :=
  listMaxQ (properties.map (fun p => p.total_sqft))

/-- Initial filter state (SearchAndFilters.tsx lines 31-39). -/
def initialFilterState : FilterState :=
  { searchTerm := ""
    selectedTypes := []
    priceRange := (0, 0)
    sizeRange := (0, 0)
    selectedLocations := []
    selectedAmenities := []
    sortBy := "date_listed" }

/-- Range-initialisation effect (SearchAndFilters.tsx lines 72-80): when the
full collection is non-empty, set the price range to its min/max total price
and the size range to (600, max total area); its only listing input is the
full collection — no filtered subset is involved. -/
def initRanges (properties : List Property) (f : FilterState) : FilterState :=
  if 0 < properties.length then
    { f with priceRange := (minPriceOf properties, maxPriceOf properties)
             sizeRange := (minSizeConst, maxSizeOf properties) }
  else f

/-- The fold underlying `listMinQ` yields an element of the candidates that is
a lower bound of all of them. -/
theorem foldl_min_spec (xs : List ℚ) : ∀ x : ℚ,
    (xs.foldl min x = x ∨ xs.foldl min x ∈ xs) ∧
    xs.foldl min x ≤ x ∧ ∀ y ∈ xs, xs.foldl min x ≤ y := by
  induction xs with
  | nil => intro x; simp
  | cons y ys ih =>
    intro x
    have h := ih (min x y)
    refine ⟨?_, ?_, ?_⟩
    · rcases h.1 with h1 | h1
      · rcases min_choice x y with hm | hm
        · left
          rw [List.foldl_cons, h1, hm]
        · right
          rw [List.foldl_cons, h1, hm]
          exact List.mem_cons_self y ys
      · right
        exact List.mem_cons_of_mem y h1
    · exact le_trans h.2.1 (min_le_left x y)
    · intro z hz
      rcases List.mem_cons.1 hz with hz | hz
      · rw [hz]
        exact le_trans h.2.1 (min_le_right x y)
      · exact h.2.2 z hz

/-- The fold underlying `listMaxQ` yields an element of the candidates that is
an upper bound of all of them. -/
theorem foldl_max_spec (xs : List ℚ) : ∀ x : ℚ,
    (xs.foldl max x = x ∨ xs.foldl max x ∈ xs) ∧
    x ≤ xs.foldl max x ∧ ∀ y ∈ xs, y ≤ xs.foldl max x := by
  induction xs with
  | nil => intro x; simp
  | cons y ys ih =>
    intro x
    have h := ih (max x y)
    refine ⟨?_, ?_, ?_⟩
    · rcases h.1 with h1 | h1
      · rcases max_choice x y with hm | hm
        · left
          rw [List.foldl_cons, h1, hm]
        · right
          rw [List.foldl_cons, h1, hm]
          exact List.mem_cons_self y ys
      · right
        exact List.mem_cons_of_mem y h1
    · exact le_trans (le_max_left x y) h.2.1
    · intro z hz
      rcases List.mem_cons.1 hz with hz | hz
      · rw [hz]
        exact le_trans (le_max_right x y) h.2.1
      · exact h.2.2 z hz

/-- On a non-empty list, `listMinQ` is a member and a lower bound. -/
theorem listMinQ_spec (l : List ℚ) (h : l ≠ []) :
    listMinQ l ∈ l ∧ ∀ y ∈ l, listMinQ l ≤ y := by
  cases l with
  | nil => exact absurd rfl h
  | cons x xs =>
    have hs := foldl_min_spec xs x
    constructor
    · rcases hs.1 with h1 | h1
      · rw [listMinQ, h1]
        exact List.mem_cons_self x xs
      · exact List.mem_cons_of_mem x h1
    · intro y hy
      rcases List.mem_cons.1 hy with hy | hy
      · rw [hy]
        exact hs.2.1
      · exact hs.2.2 y hy

/-- On a non-empty list, `listMaxQ` is a member and an upper bound. -/
theorem listMaxQ_spec (l : List ℚ) (h : l ≠ []) :
    listMaxQ l ∈ l ∧ ∀ y ∈ l, y ≤ listMaxQ l := by
  cases l with
  | nil => exact absurd rfl h
  | cons x xs =>
    have hs := foldl_max_spec xs x
    constructor
    · rcases hs.1 with h1 | h1
      · rw [listMaxQ, h1]
        exact List.mem_cons_self x xs
      · exact List.mem_cons_of_mem x h1
    · intro y hy
      rcases List.mem_cons.1 hy with hy | hy
      · rw [hy]
        exact hs.2.1
      · exact hs.2.2 y hy

/-- Counterexample for C5: for a one-listing collection with total area 1000,
the initialised area lower bound is the fixed 600, not the minimum observed
total area 1000 — refuting "the area range bounds are initialized to the
minimum and maximum values observed across the full listing collection". -/
theorem c5_range_counterexample :
    (initRanges [{ exProp with total_sqft := 1000 }] initialFilterState).sizeRange.1 = 600 ∧
    listMinQ ([{ exProp with total_sqft := 1000 }].map (fun p => p.total_sqft)) = 1000 ∧
    (initRanges [{ exProp with total_sqft := 1000 }] initialFilterState).sizeRange.1 ≠
      listMinQ ([{ exProp with total_sqft := 1000 }].map (fun p => p.total_sqft)) := by
  refine ⟨rfl, rfl, ?_⟩
  norm_num [initRanges, minSizeConst, listMinQ]

/-- Claim C5 as amended: on a non-empty collection the price bounds are
initialised to the minimum and maximum total price observed across the FULL
collection and the area upper bound to the maximum total area observed, while
the area lower bound is the fixed constant 600; the initialisation reads only
the full collection (no filtered subset is an input of `initRanges`), so a
shrinking filtered subset never changes these bounds. -/
theorem c5_range_init (properties : List Property) (f : FilterState)
    (h : 0 < properties.length) :
    (initRanges properties f).priceRange = (minPriceOf properties, maxPriceOf properties) ∧
    (initRanges properties f).sizeRange = (600, maxSizeOf properties) ∧
    (∀ q ∈ properties, minPriceOf properties ≤ totalPrice q ∧
       totalPrice q ≤ maxPriceOf properties ∧ q.total_sqft ≤ maxSizeOf properties) ∧
    minPriceOf properties ∈ properties.map totalPrice ∧
    maxPriceOf properties ∈ properties.map totalPrice ∧
    maxSizeOf properties ∈ properties.map (fun p => p.total_sqft) := by
  have hne : properties ≠ [] := List.ne_nil_of_length_pos h
  have hpne : properties.map totalPrice ≠ [] := by
    simpa using hne
  have hsne : properties.map (fun p => p.total_sqft) ≠ [] := by
    simpa using hne
  have hmin := listMinQ_spec _ hpne
  have hmax := listMaxQ_spec _ hpne
  have hsize := listMaxQ_spec _ hsne
  refine ⟨?_, ?_, ?_, hmin.1, hmax.1, hsize.1⟩
  · simp [initRanges, h]
  · simp [initRanges, h, minSizeConst]
  · intro q hq
    refine ⟨hmin.2 _ (List.mem_map_of_mem totalPrice hq), hmax.2 _ (List.mem_map_of_mem totalPrice hq), hsize.2 _ (List.mem_map_of_mem _ hq)⟩

/-- Witness for C5 at a concrete one-listing collection. -/
theorem c5_range_init_witness :
    (initRanges [exProp] initialFilterState).priceRange = (minPriceOf [exProp], maxPriceOf [exProp]) ∧
    (initRanges [exProp] initialFilterState).sizeRange = (600, maxSizeOf [exProp]) := by
  have h := c5_range_init [exProp] initialFilterState (by simp)
  exact ⟨h.1, h.2.1⟩

/-- Age of a listing (CompareModal line 18):
`p.year_built ? currentYear - p.year_built : null`.  JS truthiness makes a
year of 0 behave like an absent one; the current year is a parameter. -/
def age (currentYear : ℤ) (p : Property) : Option ℤ :=
  match p.year_built with
  | none => none
  | some y => if y = 0 then none else some (currentYear - (y : ℤ))

/-- `age(p) ?? Number.POSITIVE_INFINITY` (CompareModal line 23), with `⊤` for
infinity. -/
def ageOrInf (cy : ℤ) (p : Property) : WithTop ℤ :=
  match age cy p with
  | none => ⊤
  | some a => (a : WithTop ℤ)

/-- `bestPrice = Math.min(...properties.map(totalPrice))` (CompareModal line
21); `⊤` models the `Infinity` returned on an empty spread. -/
def bestPrice (ps : List Property) : WithTop ℚ := (ps.map totalPrice).minimum

/-- `bestSize = Math.max(...properties.map(p => p.total_sqft))` (CompareModal
line 22); `⊥` models the `-Infinity` returned on an empty spread. -/
def bestSize (ps : List Property) : WithBot ℚ := (ps.map (fun p => p.total_sqft)).maximum

/-- `bestAge = Math.min(...properties.map(p => age(p) ?? Infinity))`
(CompareModal line 23). -/
def bestAge (cy : ℤ) (ps : List Property) : WithTop ℤ := (ps.map (ageOrInf cy)).foldr min ⊤

/-- `isPriceBest = totalPrice(p) === bestPrice` (CompareModal line 47). -/
def isPriceBest (ps : List Property) (p : Property) : Bool :=
  decide ((totalPrice p : WithTop ℚ) = bestPrice ps)

/-- `isSizeBest = p.total_sqft === bestSize` (CompareModal line 48). -/
def isSizeBest (ps : List Property) (p : Property) : Bool :=
  decide ((p.total_sqft : WithBot ℚ) = bestSize ps)

/-- `isAgeBest = a !== null && a === bestAge` (CompareModal line 49). -/
def isAgeBest (cy : ℤ) (ps : List Property) (p : Property) : Bool :=
  match age cy p with
  | none => false
  | some a => decide ((a : WithTop ℤ) = bestAge cy ps)

/-- A `min`-fold from `⊤` is a lower bound of the candidates. -/
theorem foldr_min_le {β} [LinearOrder β] [OrderTop β] (L : List β) (y : β) (hy : y ∈ L) :
    L.foldr min ⊤ ≤ y := by
  induction L with
  | nil => exact absurd hy (List.not_mem_nil y)
  | cons z L ih =>
    rcases List.mem_cons.1 hy with h | h
    · rw [h, List.foldr_cons]
      exact min_le_left _ _
    · exact le_trans (min_le_right _ _) (ih h)

/-- Any lower bound of the candidates is below a `min`-fold from `⊤`. -/
theorem le_foldr_min {β} [LinearOrder β] [OrderTop β] (L : List β) (c : β)
    (h : ∀ y ∈ L, c ≤ y) : c ≤ L.foldr min ⊤ := by
  induction L with
  | nil => exact le_top
  | cons z L ih =>
    rw [List.foldr_cons]
    exact le_min (h z (List.mem_cons_self z L)) (ih fun y hy => h y (List.mem_cons_of_mem z hy))

/-- Claim C2: across 2-4 selected listings, a listing is price-best iff its
total price is minimal in the set, size-best iff its total area is maximal,
and age-best iff it has a (truthy) year-built and its age is minimal among
listings having one; ties all win, listings lacking year-built never win, and
when no listing has a year-built no listing is age-best. -/
theorem c2_comparison (cy : ℤ) (ps : List Property) (p : Property)
    (hmem : p ∈ ps) (hlen2 : 2 ≤ ps.length) (hlen4 : ps.length ≤ 4) :
    (isPriceBest ps p = true ↔ ∀ q ∈ ps, totalPrice p ≤ totalPrice q) ∧
    (isSizeBest ps p = true ↔ ∀ q ∈ ps, q.total_sqft ≤ p.total_sqft) ∧
    (isAgeBest cy ps p = true ↔
      ∃ a, age cy p = some a ∧ ∀ q ∈ ps, ∀ b, age cy q = some b → a ≤ b) ∧
    (age cy p = none → isAgeBest cy ps p = false) ∧
    ((∀ q ∈ ps, age cy q = none) → isAgeBest cy ps p = false) := by
  refine ⟨?_, ?_, ?_, ?_, ?_⟩
  · simp only [isPriceBest, decide_eq_true_eq, bestPrice]
    constructor
    · intro h q hq
      exact (List.minimum_eq_coe_iff.1 h.symm).2 (totalPrice q)
        (List.mem_map_of_mem totalPrice hq)
    · intro h
      refine (List.minimum_eq_coe_iff.2 ⟨List.mem_map_of_mem totalPrice hmem, ?_⟩).symm
      intro x hx
      rcases List.mem_map.1 hx with ⟨q, hq, rfl⟩
      exact h q hq
  · simp only [isSizeBest, decide_eq_true_eq, bestSize]
    constructor
    · intro h q hq
      exact (List.maximum_eq_coe_iff.1 h.symm).2 q.total_sqft
        (List.mem_map_of_mem (fun r => r.total_sqft) hq)
    · intro h
      refine (List.maximum_eq_coe_iff.2
        ⟨List.mem_map_of_mem (fun r => r.total_sqft) hmem, ?_⟩).symm
      intro x hx
      rcases List.mem_map.1 hx with ⟨q, hq, rfl⟩
      exact h q hq
  · cases hc : age cy p with
    | none => simp [isAgeBest, hc]
    | some a =>
      simp only [isAgeBest, hc, decide_eq_true_eq]
      constructor
      · intro h
        refine ⟨a, rfl, ?_⟩
        intro q hq b hb
        have hle : bestAge cy ps ≤ ageOrInf cy q :=
          foldr_min_le _ _ (List.mem_map_of_mem (ageOrInf cy) hq)
        rw [← h] at hle
        rw [show ageOrInf cy q = (b : WithTop ℤ) from by simp [ageOrInf, hb]] at hle
        exact_mod_cast hle
      · rintro ⟨a', ha', hbound⟩
        have haa : a' = a := (Option.some.inj ha').symm
        subst haa
        apply le_antisymm
        · apply le_foldr_min
          intro y hy
          rcases List.mem_map.1 hy with ⟨q, hq, rfl⟩
          cases hq2 : age cy q with
          | none => simp [ageOrInf, hq2]
          | some b =>
            have := hbound q hq b hq2
            rw [show ageOrInf cy q = (b : WithTop ℤ) from by simp [ageOrInf, hq2]]
            exact_mod_cast this
        · have := foldr_min_le _ (ageOrInf cy p) (List.mem_map_of_mem (ageOrInf cy) hmem)
          rw [show ageOrInf cy p = (a' : WithTop ℤ) from by simp [ageOrInf, hc]] at this
          exact this
  · intro h
    simp [isAgeBest, h]
  · intro hall
    simp [isAgeBest, hall p hmem]

/-- Second concrete example listing used by witnesses. -/
def exProp2 : Property := ⟨"b", "Big Warehouse", "Huge space", "warehouse", exAddr,
  5, 5000, some 2000, 1600000000, [], []⟩

/-- Witness for C2 at the spec's end-to-end pair: listing a (10 x 1000, built
2020) is price-best and age-best, listing b (5 x 5000, built 2000) is
size-best. -/
theorem c2_comparison_witness :
    isPriceBest [exProp, exProp2] exProp = true ∧
    isSizeBest [exProp, exProp2] exProp2 = true ∧
    isAgeBest 2025 [exProp, exProp2] exProp = true := by
  have hA := c2_comparison 2025 [exProp, exProp2] exProp
    (List.mem_cons_self _ _) (by simp) (by simp)
  have hB := c2_comparison 2025 [exProp, exProp2] exProp2
    (List.mem_cons_of_mem _ (List.mem_cons_self _ _)) (by simp) (by simp)
  refine ⟨hA.1.2 ?_, hB.2.1.2 ?_, hA.2.2.1.2 ⟨5, by norm_num [age, exProp], ?_⟩⟩
  · intro q hq
    rcases List.mem_cons.1 hq with h | h
    · rw [h]
    · rw [List.mem_singleton.1 h]
      norm_num [totalPrice, exProp, exProp2]
  · intro q hq
    rcases List.mem_cons.1 hq with h | h
    · rw [h]
      norm_num [exProp, exProp2]
    · rw [List.mem_singleton.1 h]
  · intro q hq b hb
    rcases List.mem_cons.1 hq with h | h
    · rw [h] at hb
      norm_num [age, exProp] at hb
      omega
    · rw [List.mem_singleton.1 h] at hb
      norm_num [age, exProp2] at hb
      omega

/-- `a.localeCompare(b)`, modelled as code-point order comparison returning
-1/0/1 (0 exactly on equal strings). -/
def strCompare (a b : String) : ℤ := if a < b then -1 else if b < a then 1 else 0

/-- The sort comparator switch (SearchAndFilters.tsx lines 164-183), returning
a signed number whose sign orders `a` against `b`; unknown keys compare 0. -/
def compareProps (sortBy : String) (a b : Property) : ℚ :=
  if sortBy = "date_listed" then ((b.date_listed - a.date_listed : ℤ) : ℚ)
  else if sortBy = "date_listed_old" then ((a.date_listed - b.date_listed : ℤ) : ℚ)
  else if sortBy = "price_low" then totalPrice a - totalPrice b
  else if sortBy = "price_high" then totalPrice b - totalPrice a
  else if sortBy = "size_large" then b.total_sqft - a.total_sqft
  else if sortBy = "size_small" then a.total_sqft - b.total_sqft
  else if sortBy = "title" then ((strCompare a.title b.title : ℤ) : ℚ)
  else 0

/-- `filtered.sort(comparator)` — ES2019 requires a stable sort, modelled by
stable insertion sort ordering `a` before `b` exactly when the comparator is
at most 0. -/
def sortProperties (sortBy : String) (l : List Property) : List Property :=
  l.insertionSort (fun a b => compareProps sortBy a b ≤ 0)

/-- The whole pipeline of the filter `useEffect`: the six narrowing stages
followed, last, by the sort. -/
def applyFiltersAndSort (c : FilterState) (ps : List Property) : List Property :=
  sortProperties c.sortBy (applyFilters c ps)

/-- Inserting an element into a list leaves the relative order of any class of
pairwise-related elements intact. -/
theorem filter_orderedInsert {α} (r : α → α → Prop) [DecidableRel r] (g : α → Bool) (x : α) :
    ∀ L : List α, (∀ y ∈ L, g x = true → g y = true → r x y) →
      (L.orderedInsert r x).filter g = (x :: L).filter g := by
  intro L
  induction L with
  | nil => intro _; rfl
  | cons y L ih =>
    intro h
    rw [List.orderedInsert]
    by_cases hr : r x y
    · rw [if_pos hr]
    · rw [if_neg hr]
      have hL := ih (fun z hz => h z (List.mem_cons_of_mem y hz))
      by_cases hgx : g x = true
      · have hgy : g y = false := by
          cases hy : g y
          · rfl
          · exact absurd (h y (List.mem_cons_self y L) hgx hy) hr
        simp [List.filter_cons, hgx, hgy, hL]
      · have hgx2 : g x = false := by
          cases hy : g x
          · rfl
          · exact absurd hy hgx
        simp [List.filter_cons, hgx2, hL]

/-- Stability of the modelled sort: restricting the sorted output to any class
of elements that are pairwise related in both directions gives the same
subsequence as restricting the input. -/
theorem filter_insertionSort {α} (r : α → α → Prop) [DecidableRel r] (g : α → Bool)
    (h : ∀ a b, g a = true → g b = true → r a b) (l : List α) :
    (l.insertionSort r).filter g = l.filter g := by
  induction l with
  | nil => rfl
  | cons a l ih =>
    rw [List.insertionSort, filter_orderedInsert r g a _ (fun y _ hga hgy => h a y hga hgy)]
    simp [List.filter_cons, ih]

/-- Claim C8: the sort stage runs last in the pipeline and is stable for every
sort key — listings with equal timestamps (date keys), equal total price
(price keys), equal total area (size keys) or equal titles (title key) keep
their relative order from the pre-sort filtered sequence; the model is a pure
function, so repeated runs on the same input are identical. -/
theorem c8_sort_stability :
    (∀ (c : FilterState) (ps : List Property),
      applyFiltersAndSort c ps = sortProperties c.sortBy (applyFilters c ps)) ∧
    (∀ (l : List Property) (v : ℤ),
      (sortProperties "date_listed" l).filter (fun p => decide (p.date_listed = v)) =
        l.filter (fun p => decide (p.date_listed = v))) ∧
    (∀ (l : List Property) (v : ℤ),
      (sortProperties "date_listed_old" l).filter (fun p => decide (p.date_listed = v)) =
        l.filter (fun p => decide (p.date_listed = v))) ∧
    (∀ (l : List Property) (v : ℚ),
      (sortProperties "price_low" l).filter (fun p => decide (totalPrice p = v)) =
        l.filter (fun p => decide (totalPrice p = v))) ∧
    (∀ (l : List Property) (v : ℚ),
      (sortProperties "price_high" l).filter (fun p => decide (totalPrice p = v)) =
        l.filter (fun p => decide (totalPrice p = v))) ∧
    (∀ (l : List Property) (v : ℚ),
      (sortProperties "size_large" l).filter (fun p => decide (p.total_sqft = v)) =
        l.filter (fun p => decide (p.total_sqft = v))) ∧
    (∀ (l : List Property) (v : ℚ),
      (sortProperties "size_small" l).filter (fun p => decide (p.total_sqft = v)) =
        l.filter (fun p => decide (p.total_sqft = v))) ∧
    (∀ (l : List Property) (v : String),
      (sortProperties "title" l).filter (fun p => decide (p.title = v)) =
        l.filter (fun p => decide (p.title = v))) := by
  refine ⟨fun c ps => rfl, ?_, ?_, ?_, ?_, ?_, ?_, ?_⟩ <;>
    intro l v <;>
    refine filter_insertionSort _ _ (fun a b ha hb => ?_) l <;>
    simp only [decide_eq_true_eq] at ha hb <;>
    simp [compareProps, strCompare, ha, hb]

/-- Possible runtime values of the `properties` prop handed to PropertyGrid:
absent (`undefined`), `null`, a number, a plain object, a string, or an actual
array of listings. -/
inductive JsValue where
  | undef : JsValue
  | jsNull : JsValue
  | num : ℚ → JsValue
  | obj : JsValue
  | str : String → JsValue
  | arr : List Property → JsValue
deriving DecidableEq

/-- Whether `.slice` can be called on the value: JS arrays and strings have a
`slice` method; `undefined`, `null`, numbers and plain objects do not, and
calling it throws a `TypeError`. -/
def hasSliceMethod : JsValue → Bool
  | .str _ => true
  | .arr _ => true
  | _ => false

/-- `Array.isArray` on the value. -/
def isArray : JsValue → Bool
  | .arr _ => true
  | _ => false

/-- What the first render of PropertyGrid produces for the user. -/
inductive RenderResult where
  | noData : RenderResult
  | grid : List Property → RenderResult
  | jsException : RenderResult
deriving DecidableEq

/-- First render of PropertyGrid (PropertyGrid.tsx): `filteredProperties` is
initialised to `properties` (line 16), line 103 evaluates
`filteredProperties.slice(0, visibleCount)` — throwing a `TypeError` when the
value has no `slice` method — and only afterwards does the safety check
`if (!properties || !Array.isArray(properties))` (line 106) return the
"No Properties Available" state; an array renders the first 8 items. -/
def renderPropertyGrid (v : JsValue) : RenderResult :=
  if hasSliceMethod v = false then RenderResult.jsException
  else
    match v with
    | .arr ps => RenderResult.grid (ps.take 8)
    | _ => RenderResult.noData

/-- Claim C9 evaluated at the failing input: with `properties` absent
(`undefined`), the render throws a `TypeError` at the `.slice` call before the
safety check can run, instead of producing the no-data state the spec (and the
code's own "Safety check" comment) require; the same happens for `null`, a
number, or a plain object. -/
theorem c9_input_guard_bug :
    renderPropertyGrid JsValue.undef = RenderResult.jsException ∧
    renderPropertyGrid JsValue.jsNull = RenderResult.jsException ∧
    renderPropertyGrid (JsValue.num 5) = RenderResult.jsException ∧
    renderPropertyGrid JsValue.obj = RenderResult.jsException ∧
    isArray JsValue.undef = false ∧
    RenderResult.jsException ≠ RenderResult.noData ∧
    renderPropertyGrid (JsValue.arr [exProp]) = RenderResult.grid [exProp] := by
  refine ⟨rfl, rfl, rfl, rfl, rfl, ?_, rfl⟩
  intro h
  exact RenderResult.noConfusion h
